import Mathlib

/-!
# Haptic sphere demo (`firstTutorial.cpp`): boundary force, grab state machine, menu, camera

A shallow embedding of the force/interaction core of
`src/Assignment1/myFirstProject/firstTutorial.cpp`.

Modelling conventions.

* The file-scope mutable variables of the program are the fields of `Globals`; a C++ function
  that reads or writes them becomes a function taking (and, when it writes, returning) `Globals`.
* A C++ `double` is a rational (`ℚ`), read in two ways.  In the exact reading (the definitions
  named as in the source) every `double` operation is taken without rounding.  In the
  double-precision reading (the definitions with the suffix `D`) the result of every `double`
  operation is rounded to the nearest double, ties to even (`fl`, `flSqrt`), as IEEE 754
  binary64 arithmetic does.  The theorems on the exact reading state what the program computes
  in exact arithmetic; the theorems on the `D` definitions state what the compiled program
  computes, at the inputs where rounding makes it depart from the exact reading and for the
  mass menu.  Overflow, subnormal numbers, infinities and NaN are outside both readings.
* `abs` applied to a `double` is the floating-point absolute value (the `<math.h>` overload),
  i.e. `|x|`.
* The `int` subtractions of the mouse handler are taken in `ℤ`; the theorem on them assumes
  that the differences fit in a 32-bit `int`.
* `sqrt(d) <= c` with `d` a sum of squares and `c` a non-negative constant is embedded as
  `d ≤ c ^ 2`; the lemma `sqrt_le_iff_sq_le` states that the two agree over the reals.
* A counted `for` loop is `forLoop`, a left fold of the loop body over `0, 1, …, n-1`.
* OpenGL calls only draw; they do not touch `Globals` and are left out of the state update.
* What `drawball` draws on the cube is the list of highlighted faces (`highlightedFaces`).
* Vendor types, macros and functions that are not in the repository (`hduVector3Dd`, the GLUT
  constants, `HDErrorInfo` and its two classifiers) are modelled or taken as parameters where
  they are used, and say so.
-/

namespace SFUEnsc488

/-! ## Constants -/

/-- Source: `#define SPHERE_RADIUS 12`. -/
def SPHERE_RADIUS : Int := 12

/-- Source: `#define CUBE_SIZE 150`. -/
def CUBE_SIZE : Int := 150

/-- Source: `#define SPHERE_MASS 5` (never used by the program). -/
def SPHERE_MASS : Int := 5

/-! ## Data model -/

/-- A `double[3]` / `hduVector3Dd`. -/
abbrev Vec3 := Fin 3 → ℚ

/-- A `double[16]`, a column-major 4×4 homogeneous transform. -/
abbrev Mat16 := Fin 16 → ℚ

/-- Source: `struct HapticDeviceState` (the device handle `m_hHD` is not used by the code
modelled here and is left out). -/
structure HapticDeviceState where
  button : Int
  position : Vec3
  transform_matrix : Mat16
  force : Vec3

/-- The file-scope mutable variables of `firstTutorial.cpp` (lines 97-115). -/
structure Globals where
  gLastMouseX : Int
  gLastMouseY : Int
  identityTransform : Mat16
  spherePosition : Vec3
  contactPoint : Vec3
  offsetSphere : Vec3
  gettingBallPosition : Bool
  ballAttached : Bool
  CamRotationY : ℚ
  CamRotationX : ℚ
  CamZoom : ℚ
  sphereMass : ℚ
  gIsRotatingCamera : Bool
  gIsScalingCamera : Bool
  gIsTranslatingCamera : Bool

/-- The values the globals are initialised with (lines 97-115); the two `int`s have static
storage and no initialiser, hence start at zero. -/
def initialGlobals : Globals where
  gLastMouseX := 0
  gLastMouseY := 0
  identityTransform := ![1, 0, 0, 0, 0, 1, 0, 0, 0, 0, 1, 0, 0, 0, 0, 1]
  spherePosition := ![0, 0, 0]
  contactPoint := ![0, 0, 0]
  offsetSphere := ![0, 0, 0]
  gettingBallPosition := true
  ballAttached := false
  CamRotationY := 0
  CamRotationX := 0
  CamZoom := 1
  sphereMass := 1
  gIsRotatingCamera := false
  gIsScalingCamera := false
  gIsTranslatingCamera := false

/-- The loop `for (int i = 0; i < n; i++) body(i)` as a state transformer. -/
def forLoop {σ : Type} (n : Nat) (body : Fin n → σ → σ) (s : σ) : σ :=
  (List.finRange n).foldl (fun acc i => body i acc) s

/-! ## The boundary force law -/

/-- Modelled from the spec: the vendor class `hduVector3Dd` (OpenHaptics `HDU/hduVector.h`) is
not part of the repository; its default constructor yields the zero vector, which is what makes
an axis without a wall violation "contribute zero force". -/
def hduVector3Dd_default : Vec3 := ![0, 0, 0]

/-- The wall-force loop of `CalculateForce` (lines 572-582), run on the vector `forceVec`, in
the exact reading: the sum `abs(spherePosition[i]) + 2*SPHERE_RADIUS` is not rounded before the
comparison.  `wallForceLoopD` rounds it. -/
def wallForceLoop (spherePosition : Vec3) (forceVec : Vec3) : Vec3 :=
  forLoop 3 (fun i forceVec =>
    if |spherePosition i| + ((2 * SPHERE_RADIUS : Int) : ℚ) ≥ ((Int.tdiv CUBE_SIZE 2 : Int) : ℚ) then
      if spherePosition i > 0 then
        Function.update forceVec i (-10)
      else
        Function.update forceVec i 10
    else
      forceVec) forceVec

/-- Source: `hduVector3Dd CalculateForce(double* spherePosition)` (lines 567-594), in the exact
reading (`CalculateForceD` rounds).  The parameter shadows the global of the same name;
`ballAttached` and `sphereMass` are read from the globals. -/
def CalculateForce (g : Globals) (spherePosition : Vec3) : Vec3 :=
  let forceVec : Vec3 := hduVector3Dd_default
  if g.ballAttached then
    let forceVec := wallForceLoop spherePosition forceVec
    let forceVec := Function.update forceVec 1 (forceVec 1 + (- g.sphereMass))
    forceVec
  else
    let forceVec := Function.update forceVec 0 0
    let forceVec := Function.update forceVec 1 0
    let forceVec := Function.update forceVec 2 0
    forceVec

/-- The radicand of `sqrt_dist` in `drawball` (lines 875-876):
`pow(a[0]-b[0],2) + pow(a[1]-b[1],2) + pow(a[2]-b[2],2)`. -/
def sqDist (a b : Vec3) : ℚ :=
  (a 0 - b 0) ^ 2 + (a 1 - b 1) ^ 2 + (a 2 - b 2) ^ 2

/-- The branch condition `sqrt_dist <= 3*SPHERE_RADIUS && state.button` of `drawball`
(line 880), in the exact reading: `sqrt_dist <= 36` with the subtractions, squares, sums and
the square root unrounded, embedded as `sqDist ≤ 36 ^ 2`.  `grabConditionD` compares the double
`sqrt_dist` the program computes.  An `HDint` is true when it is not zero. -/
def grabCondition (g : Globals) (state : HapticDeviceState) : Bool :=
  decide (sqDist state.position g.spherePosition ≤ (((3 * SPHERE_RADIUS : Int) : ℚ)) ^ 2)
    && decide (state.button ≠ 0)

/-- The state update of `drawball` (lines 872-906) in the exact reading (the subtractions for
`offsetSphere` and `spherePosition` unrounded; `drawballD` rounds them), paired with a ghost
flag that records whether the three assignments to `offsetSphere` (lines 887-889) were executed
in this call. -/
def drawballTraced (g : Globals) (state : HapticDeviceState) : Globals × Bool :=
  if grabCondition g state then
    let g := { g with ballAttached := true }
    let g := { g with
      identityTransform :=
        forLoop 16 (fun i m => Function.update m i (state.transform_matrix i)) g.identityTransform }
    let r : Globals × Bool :=
      if g.gettingBallPosition then
        let g := { g with
          offsetSphere := Function.update g.offsetSphere 0 (state.position 0 - g.spherePosition 0) }
        let g := { g with
          offsetSphere := Function.update g.offsetSphere 1 (state.position 1 - g.spherePosition 1) }
        let g := { g with
          offsetSphere := Function.update g.offsetSphere 2 (state.position 2 - g.spherePosition 2) }
        let g := { g with gettingBallPosition := false }
        (g, true)
      else
        (g, false)
    let g := r.1
    let g := { g with
      spherePosition :=
        forLoop 3 (fun i sp => Function.update sp i (state.position i - g.offsetSphere i))
          g.spherePosition }
    (g, r.2)
  else
    let g := { g with gettingBallPosition := true }
    let g := { g with ballAttached := false }
    (g, false)

/-- Source: `void drawball(GLUquadricObj* quadObj, HapticDeviceState state)`, its effect on the
globals. -/
def drawball (g : Globals) (state : HapticDeviceState) : Globals :=
  (drawballTraced g state).1

/-- Whether this call of `drawball` executes the assignments to `offsetSphere`. -/
def offsetRecomputed (g : Globals) (state : HapticDeviceState) : Bool :=
  (drawballTraced g state).2

/-- Source: `void MyGlutMenu(int ID)` (lines 423-443), in the exact reading: `sphereMass ++` is
`m + 1` unrounded.  `MyGlutMenuD` rounds it. -/
def MyGlutMenu (ID : Int) (g : Globals) : Globals :=
  if ID = 0 then
    g
  else if ID = 1 then
    { g with sphereMass := g.sphereMass + 1 }
  else if ID = 2 then
    let g := { g with sphereMass := g.sphereMass - 1 }
    if g.sphereMass < 0 then
      { g with sphereMass := 0 }
    else
      g
  else if ID = 3 then
    g
  else
    g

/-- A sequence of menu commands: `MyGlutMenu` run on each identifier in turn. -/
def runMenu (ids : List Int) (g : Globals) : Globals :=
  ids.foldl (fun g ID => MyGlutMenu ID g) g

/-- The menu handler called `n` times in a row with the same identifier. -/
def repeatMenu (ID : Int) : Nat → Globals → Globals
  | 0, g => g
  | n + 1, g => MyGlutMenu ID (repeatMenu ID n g)

/-- GLUT's `GLUT_DOWN` (vendor header `GL/glut.h`, not part of the repository). -/
def GLUT_DOWN : Int := 0

/-- GLUT's `GLUT_LEFT_BUTTON` (vendor header `GL/glut.h`). -/
def GLUT_LEFT_BUTTON : Int := 0

/-- GLUT's `GLUT_MIDDLE_BUTTON` (vendor header `GL/glut.h`). -/
def GLUT_MIDDLE_BUTTON : Int := 1

/-- Source: `void MyGlutMouse(int button, int state, int x, int y)` (lines 352-375). -/
def MyGlutMouse (button state x y : Int) (g : Globals) : Globals :=
  if state = GLUT_DOWN then
    let g :=
      if button = GLUT_LEFT_BUTTON then
        { g with gIsRotatingCamera := true }
      else if button = GLUT_MIDDLE_BUTTON then
        { g with gIsScalingCamera := true }
      else
        g
    let g := { g with gLastMouseX := x }
    let g := { g with gLastMouseY := y }
    g
  else
    let g := { g with gIsRotatingCamera := false }
    let g := { g with gIsScalingCamera := false }
    let g := { g with gIsTranslatingCamera := false }
    g

/-- Source: `void MyGlutMotion(int x, int y)` (lines 381-400), in the exact reading: the
literals `0.1` and `0.01` are `1/10` and `1/100`, and the products and sums are unrounded.  The
`int` differences are taken in `ℤ`, which is the `int` difference of the source as long as it
fits in 32 bits (pixel coordinates do). -/
def MyGlutMotion (x y : Int) (g : Globals) : Globals :=
  let g :=
    if g.gIsRotatingCamera then
      let g := { g with CamRotationY := g.CamRotationY + (1 / 10) * ((x - g.gLastMouseX : Int) : ℚ) }
      let g := { g with CamRotationX := g.CamRotationX + (1 / 10) * ((y - g.gLastMouseY : Int) : ℚ) }
      g
    else if g.gIsScalingCamera then
      { g with CamZoom := g.CamZoom - (1 / 100) * ((y - g.gLastMouseY : Int) : ℚ) }
    else
      g
  let g := { g with gLastMouseX := x }
  let g := { g with gLastMouseY := y }
  g

/-! ## Reachable states -/

/-- The states the display thread can bring the globals into: the initial values, followed by
any sequence of display frames (`drawball`), menu commands and mouse events.  The force task on
the scheduler thread only reads the globals. -/
inductive Reachable : Globals → Prop
  | init : Reachable initialGlobals
  | frame {g : Globals} (state : HapticDeviceState) : Reachable g → Reachable (drawball g state)
  | menu {g : Globals} (ID : Int) : Reachable g → Reachable (MyGlutMenu ID g)
  | mouse {g : Globals} (button state x y : Int) :
      Reachable g → Reachable (MyGlutMouse button state x y g)
  | motion {g : Globals} (x y : Int) : Reachable g → Reachable (MyGlutMotion x y g)

/-! ## Cube-face highlighting (`drawball`, lines 926-1014) -/

/-- The six quads `drawball` can draw, named as the source comments name them.  Each lies in
the plane given by its four `glVertex3f` corners: `back` in `z = -75`, `right` in `x = 75`,
`down` in `y = -75`, `left` in `x = -75`, `up` in `y = 75`, `front` in `z = 75`. -/
inductive CubeFace
  | back
  | right
  | down
  | left
  | up
  | front
  deriving DecidableEq, Repr

/-- The coordinate axis a face is perpendicular to (the coordinate its four corners share). -/
def CubeFace.axis : CubeFace → Fin 3
  | .back => 2
  | .right => 0
  | .down => 1
  | .left => 0
  | .up => 1
  | .front => 2

/-- Whether the face lies on the positive side of its axis (shared corner coordinate `+75`). -/
def CubeFace.positiveSide : CubeFace → Bool
  | .back => false
  | .right => true
  | .down => false
  | .left => false
  | .up => true
  | .front => true

/-- The positive-side face of an axis. -/
def positiveFace : Fin 3 → CubeFace
  | 0 => .right
  | 1 => .up
  | 2 => .front

/-- The negative-side face of an axis. -/
def negativeFace : Fin 3 → CubeFace
  | 0 => .left
  | 1 => .down
  | 2 => .back

/-- The six highlight blocks at the end of `drawball` (lines 926-1014), run on the globals as
the update part of `drawball` left them: the quads drawn, in drawing order. -/
def highlightedFaces (g : Globals) : List CubeFace :=
  let quads : List CubeFace := []
  let quads :=
    if g.ballAttached then
      if |g.spherePosition 2| + ((2 * SPHERE_RADIUS : Int) : ℚ) ≥ ((Int.tdiv CUBE_SIZE 2 : Int) : ℚ) then
        if g.spherePosition 2 < 0 then quads ++ [CubeFace.back] else quads
      else quads
    else quads
  let quads :=
    if g.ballAttached then
      if |g.spherePosition 0| + ((2 * SPHERE_RADIUS : Int) : ℚ) ≥ ((Int.tdiv CUBE_SIZE 2 : Int) : ℚ) then
        if g.spherePosition 0 > 0 then quads ++ [CubeFace.right] else quads
      else quads
    else quads
  let quads :=
    if g.ballAttached then
      if |g.spherePosition 1| + ((2 * SPHERE_RADIUS : Int) : ℚ) ≥ ((Int.tdiv CUBE_SIZE 2 : Int) : ℚ) then
        if g.spherePosition 1 < 0 then quads ++ [CubeFace.down] else quads
      else quads
    else quads
  let quads :=
    if g.ballAttached then
      if |g.spherePosition 0| + ((2 * SPHERE_RADIUS : Int) : ℚ) ≥ ((Int.tdiv CUBE_SIZE 2 : Int) : ℚ) then
        if g.spherePosition 0 < 0 then quads ++ [CubeFace.left] else quads
      else quads
    else quads
  let quads :=
    if g.ballAttached then
      if |g.spherePosition 1| + ((2 * SPHERE_RADIUS : Int) : ℚ) ≥ ((Int.tdiv CUBE_SIZE 2 : Int) : ℚ) then
        if g.spherePosition 1 > 0 then quads ++ [CubeFace.up] else quads
      else quads
    else quads
  let quads :=
    if g.ballAttached then
      if |g.spherePosition 2| + ((2 * SPHERE_RADIUS : Int) : ℚ) ≥ ((Int.tdiv CUBE_SIZE 2 : Int) : ℚ) then
        if g.spherePosition 2 > 0 then quads ++ [CubeFace.front] else quads
      else quads
    else quads
  quads

/-- The path condition of the highlight block of each face, read off the six blocks of
`drawball`: the attachment flag, the boundary test on the face's axis, and the sign test. -/
def faceActive (g : Globals) : CubeFace → Bool
  | .back =>
    g.ballAttached &&
      decide (|g.spherePosition 2| + ((2 * SPHERE_RADIUS : Int) : ℚ) ≥ ((Int.tdiv CUBE_SIZE 2 : Int) : ℚ)) &&
      decide (g.spherePosition 2 < 0)
  | .right =>
    g.ballAttached &&
      decide (|g.spherePosition 0| + ((2 * SPHERE_RADIUS : Int) : ℚ) ≥ ((Int.tdiv CUBE_SIZE 2 : Int) : ℚ)) &&
      decide (g.spherePosition 0 > 0)
  | .down =>
    g.ballAttached &&
      decide (|g.spherePosition 1| + ((2 * SPHERE_RADIUS : Int) : ℚ) ≥ ((Int.tdiv CUBE_SIZE 2 : Int) : ℚ)) &&
      decide (g.spherePosition 1 < 0)
  | .left =>
    g.ballAttached &&
      decide (|g.spherePosition 0| + ((2 * SPHERE_RADIUS : Int) : ℚ) ≥ ((Int.tdiv CUBE_SIZE 2 : Int) : ℚ)) &&
      decide (g.spherePosition 0 < 0)
  | .up =>
    g.ballAttached &&
      decide (|g.spherePosition 1| + ((2 * SPHERE_RADIUS : Int) : ℚ) ≥ ((Int.tdiv CUBE_SIZE 2 : Int) : ℚ)) &&
      decide (g.spherePosition 1 > 0)
  | .front =>
    g.ballAttached &&
      decide (|g.spherePosition 2| + ((2 * SPHERE_RADIUS : Int) : ℚ) ≥ ((Int.tdiv CUBE_SIZE 2 : Int) : ℚ)) &&
      decide (g.spherePosition 2 > 0)

/-- The six faces in the order `drawball` visits them. -/
def allFaces : List CubeFace :=
  [.back, .right, .down, .left, .up, .front]

/-- The cube faces one call of `drawball` highlights: the highlight blocks run after the state
update of the same call. -/
def drawballHighlights (g : Globals) (state : HapticDeviceState) : List CubeFace :=
  highlightedFaces (drawball g state)

/-! ## The force task (`SettingForceCallback`) -/

/-- The two callback return codes of the vendor scheduler (`HD/hd.h`, not part of the
repository). -/
inductive HDCallbackCode
  | HD_CALLBACK_DONE
  | HD_CALLBACK_CONTINUE
  deriving DecidableEq, Repr

/-- What one run of the force task does that is visible outside it: the vector handed to
`hdSetDoublev(HD_CURRENT_FORCE, ...)`, whether `hduPrintError` was called, and the returned
status. -/
structure ForceTaskRun where
  forceSet : Vec3
  errorPrinted : Bool
  code : HDCallbackCode

/-- Source: `HDCallbackCode HDCALLBACK SettingForceCallback(void *data)` (lines 495-533).
The vendor error record type `ε` (`HDErrorInfo`), the macro `HD_DEVICE_ERROR` and the function
`hduIsSchedulerError` are not part of the repository and are parameters; `error` is the value
`hdGetError()` returns after `hdEndFrame`. -/
def SettingForceCallback {ε : Type} (HD_DEVICE_ERROR : ε → Bool)
    (hduIsSchedulerError : ε → Bool) (g : Globals) (error : ε) : ForceTaskRun :=
  let forceVec := CalculateForce g g.spherePosition
  if HD_DEVICE_ERROR error then
    if hduIsSchedulerError error then
      { forceSet := forceVec, errorPrinted := true, code := HDCallbackCode.HD_CALLBACK_DONE }
    else
      { forceSet := forceVec, errorPrinted := true, code := HDCallbackCode.HD_CALLBACK_CONTINUE }
  else
    { forceSet := forceVec, errorPrinted := false, code := HDCallbackCode.HD_CALLBACK_CONTINUE }

/-! ## The double-precision reading

The definitions above take every `double` operation without rounding.  The definitions of this
section round the result of every `double` operation to the nearest double, ties to even
(IEEE 754 binary64, 53-bit significand), as the compiled program does.  Overflow, subnormal
numbers, infinities and NaN are not modelled; no value evaluated below comes near them. -/

/-- Rounding of a rational to the nearest integer, ties to the even integer. -/
def roundHalfEven (q : ℚ) : ℤ :=
  if q - ⌊q⌋ < 1 / 2 then ⌊q⌋
  else if 1 / 2 < q - ⌊q⌋ then ⌊q⌋ + 1
  else if ⌊q⌋ % 2 = 0 then ⌊q⌋
  else ⌊q⌋ + 1

/-- The double nearest to `x`, ties to even: with `2 ^ e ≤ |x| < 2 ^ (e+1)` the doubles around
`x` are the integer multiples of `2 ^ (e - 52)`. -/
def fl (x : ℚ) : ℚ :=
  if x = 0 then 0
  else roundHalfEven (x / 2 ^ (Int.log 2 |x| - 52)) * 2 ^ (Int.log 2 |x| - 52)

/-- Source: `void MyGlutMenu(int ID)` (lines 423-443) in double arithmetic: `sphereMass ++`
and `sphereMass --` round their result. -/
def MyGlutMenuD (ID : Int) (g : Globals) : Globals :=
  if ID = 0 then
    g
  else if ID = 1 then
    { g with sphereMass := fl (g.sphereMass + 1) }
  else if ID = 2 then
    let g := { g with sphereMass := fl (g.sphereMass - 1) }
    if g.sphereMass < 0 then
      { g with sphereMass := 0 }
    else
      g
  else if ID = 3 then
    g
  else
    g

/-- A sequence of menu commands in double arithmetic. -/
def runMenuD (ids : List Int) (g : Globals) : Globals :=
  ids.foldl (fun g ID => MyGlutMenuD ID g) g

/-- The menu handler called `n` times in a row with the same identifier, in double
arithmetic. -/
def repeatMenuD (ID : Int) : Nat → Globals → Globals
  | 0, g => g
  | n + 1, g => MyGlutMenuD ID (repeatMenuD ID n g)

/-! ## Concrete states used as instances -/

/-- A state in which the sphere is held: the initial values with the two grab flags flipped
(the state `drawball` produces from the initial one when the tip is at the origin). -/
def heldGlobals : Globals :=
  { initialGlobals with ballAttached := true, gettingBallPosition := false }

/-- A snapshot with the tip at `pos`, button value `button`, and transform `m`. -/
def snapshotAt (pos : Vec3) (button : Int) (m : Mat16) : HapticDeviceState :=
  { button := button, position := pos, transform_matrix := m, force := ![0, 0, 0] }

/-- First frame of the grab scenario: tip at `(24, 0, 0)`, at distance `2*12` from the sphere
at the origin, button pressed. -/
def grabSnapshot : HapticDeviceState :=
  snapshotAt ![24, 0, 0] 1 initialGlobals.identityTransform

/-- Second frame of the grab scenario with a small displacement `(6, 5, 0)` of the tip. -/
def nearSnapshot : HapticDeviceState :=
  snapshotAt ![30, 5, 0] 1 initialGlobals.identityTransform

/-- A frame with the button released and the tip at `(30, 5, 0)`. -/
def releasedSnapshot : HapticDeviceState :=
  snapshotAt ![30, 5, 0] 0 initialGlobals.identityTransform

/-- A held sphere of mass `2`: `heldGlobals` after one "increase mass" command. -/
def heavyHeldGlobals : Globals :=
  MyGlutMenu 1 heldGlobals

/-- An attached state that no run of the program reaches: the grab offset `(100, 0, 0)` is
longer than the grab radius `36`. -/
def longOffsetGlobals : Globals :=
  { heldGlobals with offsetSphere := ![100, 0, 0] }

/-- A frame with the tip at `(10, 0, 0)` and the button pressed. -/
def closeSnapshot : HapticDeviceState :=
  snapshotAt ![10, 0, 0] 1 initialGlobals.identityTransform

/-- A held sphere at `(60, -51, 0)`: beyond the right wall, exactly on the lower threshold. -/
def cornerGlobals : Globals :=
  { heldGlobals with spherePosition := ![60, -51, 0] }

/-- The initial state with the mass at `2^53`. -/
def saturatedGlobals : Globals :=
  { initialGlobals with sphereMass := 2 ^ 53 }

theorem forLoop_three {σ : Type} (body : Fin 3 → σ → σ) (s : σ) :
    forLoop 3 body s = body 2 (body 1 (body 0 s)) := rfl

theorem threshold_consts :
    ((2 * SPHERE_RADIUS : Int) : ℚ) = 24 ∧ ((Int.tdiv CUBE_SIZE 2 : Int) : ℚ) = 75 := by
  constructor
  · norm_num [SPHERE_RADIUS]
  · have h : Int.tdiv CUBE_SIZE 2 = 75 := by decide
    rw [h]; norm_num

/-- One loop iteration only writes its own index, so the loop result at axis `i` is decided by
the coordinate on axis `i` alone. -/
theorem wallForceLoop_apply (p f : Vec3) (i : Fin 3) :
    wallForceLoop p f i =
      if |p i| + 24 ≥ 75 then (if p i > 0 then -10 else 10) else f i := by
  obtain ⟨h24, h75⟩ := threshold_consts
  unfold wallForceLoop
  rw [forLoop_three, h24, h75]
  fin_cases i <;> simp only [Fin.zero_eta, Fin.mk_one, Fin.reduceFinMk] <;>
    split_ifs <;> simp [Function.update]

/-- The returned vector once the wall loop is known pointwise. -/
theorem attachedForce_apply (g : Globals) (p : Vec3) (h : g.ballAttached = true)
    (i : Fin 3) :
    CalculateForce g p i =
      wallForceLoop p hduVector3Dd_default i - (if i = 1 then g.sphereMass else 0) := by
  simp only [CalculateForce, h, if_true]
  fin_cases i <;> simp [Function.update, sub_eq_add_neg]

/-! ## Lemmas on the interaction update -/

theorem foldl_update_apply {n : Nat} (f : Fin n → ℚ) (l : List (Fin n)) (a : Fin n → ℚ)
    (j : Fin n) :
    (l.foldl (fun acc i => Function.update acc i (f i)) a) j = if j ∈ l then f j else a j := by
  induction l generalizing a with
  | nil => simp
  | cons x xs ih =>
    rw [List.foldl_cons, ih]
    by_cases hj : j ∈ xs
    · simp [hj]
    · by_cases hx : j = x
      · subst hx
        simp [hj]
      · simp [hj, hx, Function.update_noteq hx]

/-- A loop that assigns `a[i] = f i` for every index leaves the array equal to `f`. -/
theorem forLoop_assign {n : Nat} (f : Fin n → ℚ) (a : Fin n → ℚ) :
    forLoop n (fun i m => Function.update m i (f i)) a = f := by
  funext j
  unfold forLoop
  rw [foldl_update_apply, if_pos (List.mem_finRange j)]

/-- Comparing a square root with a non-negative bound is comparing the radicand with the
square of the bound: the embedding of `sqrt_dist <= 3*SPHERE_RADIUS`. -/
theorem sqrt_le_iff_sq_le (d c : ℚ) (hc : 0 ≤ c) :
    Real.sqrt (d : ℝ) ≤ (c : ℝ) ↔ d ≤ c ^ 2 := by
  rw [Real.sqrt_le_iff]
  constructor
  · rintro ⟨_, h⟩
    exact_mod_cast h
  · intro h
    exact ⟨by exact_mod_cast hc, by exact_mod_cast h⟩

theorem offset_three_updates (off pos sp : Vec3) :
    Function.update (Function.update (Function.update off 0 (pos 0 - sp 0)) 1 (pos 1 - sp 1)) 2
        (pos 2 - sp 2) = fun i => pos i - sp i := by
  funext i
  fin_cases i <;> simp [Function.update]

/-- The grab condition in terms of the Euclidean distance over the reals. -/
theorem grabCondition_iff (g : Globals) (state : HapticDeviceState) :
    grabCondition g state = true ↔
      Real.sqrt ((sqDist state.position g.spherePosition : ℚ) : ℝ) ≤ 3 * 12 ∧
        state.button ≠ 0 := by
  have h36 : (((3 * SPHERE_RADIUS : Int) : ℚ)) = 36 := by norm_num [SPHERE_RADIUS]
  have hs := sqrt_le_iff_sq_le (sqDist state.position g.spherePosition) 36 (by norm_num)
  have hc : ((36 : ℚ) : ℝ) = 3 * 12 := by norm_num
  rw [hc] at hs
  simp only [grabCondition, Bool.and_eq_true, decide_eq_true_eq, h36]
  rw [hs]

/-- The grab branch of `drawball` in closed form. -/
theorem drawballTraced_grab (g : Globals) (state : HapticDeviceState)
    (h : grabCondition g state = true) :
    drawballTraced g state =
      ({ g with
          ballAttached := true
          identityTransform := state.transform_matrix
          offsetSphere :=
            if g.gettingBallPosition then fun i => state.position i - g.spherePosition i
            else g.offsetSphere
          gettingBallPosition := false
          spherePosition := fun i =>
            state.position i -
              (if g.gettingBallPosition then fun i => state.position i - g.spherePosition i
                else g.offsetSphere) i },
        g.gettingBallPosition) := by
  unfold drawballTraced
  rw [if_pos h]
  cases hg : g.gettingBallPosition <;>
    simp [hg, forLoop_assign, offset_three_updates]

/-- The release branch of `drawball` in closed form. -/
theorem drawballTraced_release (g : Globals) (state : HapticDeviceState)
    (h : grabCondition g state = false) :
    drawballTraced g state =
      ({ g with gettingBallPosition := true, ballAttached := false }, false) := by
  unfold drawballTraced
  simp [h]

theorem drawball_ballAttached (g : Globals) (state : HapticDeviceState) :
    (drawball g state).ballAttached = grabCondition g state := by
  unfold drawball
  cases h : grabCondition g state
  · rw [drawballTraced_release g state h]
  · rw [drawballTraced_grab g state h]

theorem drawball_gettingBallPosition (g : Globals) (state : HapticDeviceState) :
    (drawball g state).gettingBallPosition = !grabCondition g state := by
  unfold drawball
  cases h : grabCondition g state
  · rw [drawballTraced_release g state h]; rfl
  · rw [drawballTraced_grab g state h]; rfl

theorem offsetRecomputed_eq (g : Globals) (state : HapticDeviceState) :
    offsetRecomputed g state = (grabCondition g state && g.gettingBallPosition) := by
  unfold offsetRecomputed
  cases h : grabCondition g state
  · rw [drawballTraced_release g state h]; rfl
  · rw [drawballTraced_grab g state h]; simp

theorem drawball_grab_offset (g : Globals) (state : HapticDeviceState)
    (h : grabCondition g state = true) :
    (drawball g state).offsetSphere =
      if g.gettingBallPosition then fun i => state.position i - g.spherePosition i
      else g.offsetSphere := by
  unfold drawball
  rw [drawballTraced_grab g state h]

theorem drawball_grab_position (g : Globals) (state : HapticDeviceState)
    (h : grabCondition g state = true) (i : Fin 3) :
    (drawball g state).spherePosition i =
      state.position i - (drawball g state).offsetSphere i := by
  unfold drawball
  rw [drawballTraced_grab g state h]

theorem MyGlutMenu_grab_fields (ID : Int) (g : Globals) :
    (MyGlutMenu ID g).ballAttached = g.ballAttached ∧
      (MyGlutMenu ID g).gettingBallPosition = g.gettingBallPosition := by
  unfold MyGlutMenu
  dsimp only
  split_ifs <;> exact ⟨rfl, rfl⟩

theorem MyGlutMouse_grab_fields (button state x y : Int) (g : Globals) :
    (MyGlutMouse button state x y g).ballAttached = g.ballAttached ∧
      (MyGlutMouse button state x y g).gettingBallPosition = g.gettingBallPosition := by
  unfold MyGlutMouse
  split_ifs <;> exact ⟨rfl, rfl⟩

theorem MyGlutMotion_grab_fields (x y : Int) (g : Globals) :
    (MyGlutMotion x y g).ballAttached = g.ballAttached ∧
      (MyGlutMotion x y g).gettingBallPosition = g.gettingBallPosition := by
  unfold MyGlutMotion
  split_ifs <;> exact ⟨rfl, rfl⟩

/-- In every reachable state the "needs offset recompute" flag is the negation of the
attachment flag. -/
theorem Reachable.flags (g : Globals) (hr : Reachable g) :
    g.gettingBallPosition = !g.ballAttached := by
  induction hr with
  | init => rfl
  | frame state _ _ => rw [drawball_gettingBallPosition, drawball_ballAttached]
  | menu ID _ ih =>
    rw [(MyGlutMenu_grab_fields ID _).1, (MyGlutMenu_grab_fields ID _).2]; exact ih
  | mouse button state x y _ ih =>
    rw [(MyGlutMouse_grab_fields button state x y _).1,
      (MyGlutMouse_grab_fields button state x y _).2]; exact ih
  | motion x y _ ih =>
    rw [(MyGlutMotion_grab_fields x y _).1, (MyGlutMotion_grab_fields x y _).2]; exact ih

theorem grabScenario_distance :
    Real.sqrt ((sqDist grabSnapshot.position initialGlobals.spherePosition : ℚ) : ℝ) = 2 * 12 := by
  have h : sqDist grabSnapshot.position initialGlobals.spherePosition = 24 ^ 2 := by
    simp [sqDist, grabSnapshot, snapshotAt, initialGlobals]
  rw [h]
  push_cast
  rw [Real.sqrt_sq (by norm_num)]
  norm_num

theorem MyGlutMenu_increase (g : Globals) :
    (MyGlutMenu 1 g).sphereMass = g.sphereMass + 1 := by
  simp [MyGlutMenu]

theorem MyGlutMenu_decrease (g : Globals) :
    (MyGlutMenu 2 g).sphereMass = max (g.sphereMass - 1) 0 := by
  unfold MyGlutMenu
  dsimp only
  by_cases h : g.sphereMass - 1 < 0
  · simp [h, max_eq_right (le_of_lt h)]
  · simp [h, max_eq_left (not_lt.mp h)]

theorem MyGlutMenu_mass_nonneg (ID : Int) (g : Globals) (h : 0 ≤ g.sphereMass) :
    0 ≤ (MyGlutMenu ID g).sphereMass := by
  unfold MyGlutMenu
  dsimp only
  split_ifs with h0 h1 h2 hneg h3
  · exact h
  · show 0 ≤ g.sphereMass + 1
    linarith
  · exact le_refl _
  · exact not_lt.mp hneg
  · exact h
  · exact h

theorem runMenu_mass_nonneg (ids : List Int) (g : Globals) (h : 0 ≤ g.sphereMass) :
    0 ≤ (runMenu ids g).sphereMass := by
  induction ids generalizing g with
  | nil => exact h
  | cons ID rest ih =>
    unfold runMenu
    rw [List.foldl_cons]
    exact ih (MyGlutMenu ID g) (MyGlutMenu_mass_nonneg ID g h)

theorem repeatMenu_mass_nonneg (ID : Int) (n : Nat) (g : Globals) (h : 0 ≤ g.sphereMass) :
    0 ≤ (repeatMenu ID n g).sphereMass := by
  induction n with
  | zero => exact h
  | succ k ih => exact MyGlutMenu_mass_nonneg ID _ ih

theorem repeatMenu_increase (n : Nat) (g : Globals) :
    (repeatMenu 1 n g).sphereMass = g.sphereMass + n := by
  induction n with
  | zero => simp [repeatMenu]
  | succ k ih =>
    show (MyGlutMenu 1 (repeatMenu 1 k g)).sphereMass = g.sphereMass + ((k + 1 : Nat) : ℚ)
    rw [MyGlutMenu_increase, ih]
    push_cast
    ring

/-! ## The boundary force law: theorems -/

/-- C2: while detached, `CalculateForce` returns the zero vector whatever the position and
the mass: no wall force and no gravity term. -/
theorem CalculateForce_detached (g : Globals) (p : Vec3) (h : g.ballAttached = false) :
    CalculateForce g p = ![0, 0, 0] := by
  simp only [CalculateForce, h]
  funext i
  fin_cases i <;> simp [Function.update]

/-- C2 instance: the initial (detached) state with the sphere position far outside the cube. -/
theorem CalculateForce_detached_witness :
    initialGlobals.ballAttached = false ∧
      CalculateForce initialGlobals ![100, -100, 60] = ![0, 0, 0] :=
  ⟨rfl, CalculateForce_detached initialGlobals ![100, -100, 60] rfl⟩

/-- C4: the boundary comparison is inclusive.  While attached, an axis `i` whose coordinate is
exactly on the threshold (`|p i| + 2*12 = 75`, that is `p i = 51` or `p i = -51`) gets a
non-zero wall force: `-10` at `51` and `+10` at `-51`; the returned component is that wall force,
minus the mass on the vertical axis. -/
theorem CalculateForce_threshold_inclusive (g : Globals) (p : Vec3) (i : Fin 3)
    (h : g.ballAttached = true) (hthr : |p i| + 2 * 12 = 75) :
    wallForceLoop p hduVector3Dd_default i ≠ 0 ∧
      (p i = 51 ∨ p i = -51) ∧
      (p i = 51 → wallForceLoop p hduVector3Dd_default i = -10 ∧
        CalculateForce g p i = -10 - (if i = 1 then g.sphereMass else 0)) ∧
      (p i = -51 → wallForceLoop p hduVector3Dd_default i = 10 ∧
        CalculateForce g p i = 10 - (if i = 1 then g.sphereMass else 0)) := by
  have habs : |p i| = 51 := by linarith
  have hv : |p i| + 24 ≥ 75 := by rw [habs]; norm_num
  have hcases : p i = 51 ∨ p i = -51 := by
    rcases abs_choice (p i) with hc | hc
    · left; rw [← hc]; exact habs
    · right; rw [hc] at habs; linarith
  have hpos : p i = 51 → wallForceLoop p hduVector3Dd_default i = -10 := by
    intro h51
    rw [wallForceLoop_apply, if_pos hv, if_pos (by rw [h51]; norm_num)]
  have hneg : p i = -51 → wallForceLoop p hduVector3Dd_default i = 10 := by
    intro h51
    rw [wallForceLoop_apply, if_pos hv, if_neg (by rw [h51]; norm_num)]
  refine ⟨?_, hcases, ?_, ?_⟩
  · rcases hcases with hc | hc
    · rw [hpos hc]; norm_num
    · rw [hneg hc]; norm_num
  · intro hc
    exact ⟨hpos hc, by rw [attachedForce_apply g p h, hpos hc]⟩
  · intro hc
    exact ⟨hneg hc, by rw [attachedForce_apply g p h, hneg hc]⟩

/-- C4 instance: held sphere at `(51, -51, 0)`, axis `0` exactly on the threshold. -/
theorem CalculateForce_threshold_inclusive_witness :
    heldGlobals.ballAttached = true ∧
      |(![51, -51, 0] : Vec3) 0| + 2 * 12 = 75 ∧
      wallForceLoop ![51, -51, 0] hduVector3Dd_default 0 ≠ 0 :=
  have hthr : |(![51, -51, 0] : Vec3) 0| + 2 * 12 = 75 := by
    norm_num [abs_of_nonneg]
  ⟨rfl, hthr, (CalculateForce_threshold_inclusive heldGlobals ![51, -51, 0] 0 rfl hthr).1⟩

/-! ## The grab state machine: theorems -/

/-- C6: in every reachable state, a frame executes the assignments to `offsetSphere` exactly
when the sphere is detached before the frame and attached after it; a frame on which the sphere
is attached both before and after leaves `offsetSphere` unchanged. -/
theorem offset_recomputed_iff_grab_start (g : Globals) (state : HapticDeviceState)
    (hr : Reachable g) :
    (offsetRecomputed g state = true ↔
        g.ballAttached = false ∧ (drawball g state).ballAttached = true) ∧
      (g.ballAttached = true → (drawball g state).ballAttached = true →
        (drawball g state).offsetSphere = g.offsetSphere) := by
  have hflag := Reachable.flags g hr
  constructor
  · rw [offsetRecomputed_eq, drawball_ballAttached, hflag]
    cases g.ballAttached <;> cases grabCondition g state <;> simp
  · intro hb ha
    rw [drawball_ballAttached] at ha
    rw [drawball_grab_offset g state ha, hflag, hb]
    rfl

/-- C6 instance: the first frame from the initial state with the tip at `(24, 0, 0)` and the
button pressed. -/
theorem offset_recomputed_iff_grab_start_witness :
    Reachable initialGlobals ∧
      (offsetRecomputed initialGlobals (snapshotAt ![24, 0, 0] 1 initialGlobals.identityTransform)
          = true ↔
        initialGlobals.ballAttached = false ∧
          (drawball initialGlobals
            (snapshotAt ![24, 0, 0] 1 initialGlobals.identityTransform)).ballAttached = true) :=
  ⟨Reachable.init,
    (offset_recomputed_iff_grab_start initialGlobals
      (snapshotAt ![24, 0, 0] 1 initialGlobals.identityTransform) Reachable.init).1⟩

/-- C9: the sphere mass is floor-clamped at zero.  After every finite sequence of menu
commands from the initial state (mass `1`) the mass is `≥ 0`; a decrease command applied to mass
`m` yields `max (m - 1) 0`; so repeated decrease commands, after any command sequence or from
any mass at all, never leave the mass below zero. -/
theorem sphereMass_floor_clamped :
    initialGlobals.sphereMass = 1 ∧
      (∀ ids : List Int, 0 ≤ (runMenu ids initialGlobals).sphereMass) ∧
      (∀ g : Globals, (MyGlutMenu 2 g).sphereMass = max (g.sphereMass - 1) 0) ∧
      (∀ (ids : List Int) (n : Nat),
        0 ≤ (repeatMenu 2 n (runMenu ids initialGlobals)).sphereMass) ∧
      (∀ (g : Globals) (n : Nat), 0 ≤ (repeatMenu 2 (n + 1) g).sphereMass) := by
  have h0 : (0 : ℚ) ≤ initialGlobals.sphereMass := by
    show (0 : ℚ) ≤ 1
    norm_num
  refine ⟨rfl, fun ids => runMenu_mass_nonneg ids _ h0, MyGlutMenu_decrease, ?_, ?_⟩
  · intro ids n
    exact repeatMenu_mass_nonneg 2 n _ (runMenu_mass_nonneg ids _ h0)
  · intro g n
    show 0 ≤ (MyGlutMenu 2 (repeatMenu 2 n g)).sphereMass
    rw [MyGlutMenu_decrease]
    exact le_max_right _ _

/-! ## Further lemmas on the force law -/

/-- The force on a held sphere at the origin is the gravity term alone. -/
theorem attachedForce_origin (g : Globals) (h : g.ballAttached = true) :
    CalculateForce g ![0, 0, 0] = ![0, -g.sphereMass, 0] := by
  funext i
  rw [attachedForce_apply g _ h, wallForceLoop_apply]
  fin_cases i <;> simp [hduVector3Dd_default] <;> norm_num

theorem drawball_grab_transform (g : Globals) (state : HapticDeviceState)
    (h : grabCondition g state = true) :
    (drawball g state).identityTransform = state.transform_matrix := by
  unfold drawball
  rw [drawballTraced_grab g state h]

/-! ## The force task: theorems -/

/-- C11: the force task returns `HD_CALLBACK_DONE` exactly when the error query after the
frame reports a device error and that error is classified as a scheduler error; on every other
path (no error, or a device error that is not a scheduler error) it returns
`HD_CALLBACK_CONTINUE`. -/
theorem SettingForceCallback_done_iff {ε : Type} (HD_DEVICE_ERROR : ε → Bool)
    (hduIsSchedulerError : ε → Bool) (g : Globals) (error : ε) :
    ((SettingForceCallback HD_DEVICE_ERROR hduIsSchedulerError g error).code =
          HDCallbackCode.HD_CALLBACK_DONE ↔
        HD_DEVICE_ERROR error = true ∧ hduIsSchedulerError error = true) ∧
      ((SettingForceCallback HD_DEVICE_ERROR hduIsSchedulerError g error).code =
          HDCallbackCode.HD_CALLBACK_CONTINUE ↔
        ¬ (HD_DEVICE_ERROR error = true ∧ hduIsSchedulerError error = true)) := by
  unfold SettingForceCallback
  cases hd : HD_DEVICE_ERROR error <;> cases hs : hduIsSchedulerError error <;> simp

/-- C12, as stated, fails: `heldGlobals` and `heavyHeldGlobals` agree on the tracked sphere
position and on the attachment flag, yet `CalculateForce` returns `-1` on the vertical axis for
the first and `-2` for the second, because it also reads `sphereMass`. -/
theorem CalculateForce_reads_mass_counterexample :
    heldGlobals.spherePosition = heavyHeldGlobals.spherePosition ∧
      heldGlobals.ballAttached = heavyHeldGlobals.ballAttached ∧
      CalculateForce heldGlobals heldGlobals.spherePosition 1 = -1 ∧
      CalculateForce heavyHeldGlobals heavyHeldGlobals.spherePosition 1 = -2 ∧
      CalculateForce heldGlobals heldGlobals.spherePosition ≠
        CalculateForce heavyHeldGlobals heavyHeldGlobals.spherePosition := by
  have h1 : CalculateForce heldGlobals heldGlobals.spherePosition = ![0, -1, 0] := by
    have h := attachedForce_origin heldGlobals rfl
    simpa [heldGlobals, initialGlobals] using h
  have h2 : CalculateForce heavyHeldGlobals heavyHeldGlobals.spherePosition = ![0, -2, 0] := by
    have hm : heavyHeldGlobals.sphereMass = 2 := by
      rw [heavyHeldGlobals, MyGlutMenu_increase]
      norm_num [heldGlobals, initialGlobals]
    have h := attachedForce_origin heavyHeldGlobals rfl
    rw [hm] at h
    exact h
  refine ⟨rfl, rfl, ?_, ?_, ?_⟩
  · rw [h1]; rfl
  · rw [h2]; rfl
  · rw [h1, h2]
    intro h
    have h' := congrFun h 1
    norm_num at h'

/-- C12, amended: the force law is a function of the tracked sphere position, the attachment
flag and, while attached, the sphere mass: two program states that agree on these get the same
force vector from `CalculateForce`. -/
theorem CalculateForce_pure_in_position_flag_mass (g1 g2 : Globals)
    (hp : g1.spherePosition = g2.spherePosition) (ha : g1.ballAttached = g2.ballAttached)
    (hm : g1.ballAttached = true → g1.sphereMass = g2.sphereMass) :
    CalculateForce g1 g1.spherePosition = CalculateForce g2 g2.spherePosition := by
  unfold CalculateForce
  rw [← hp, ← ha]
  cases hb : g1.ballAttached
  · simp
  · simp [hm hb]

/-- C12 (amended) instance: two held states that differ in the grab offset only. -/
theorem CalculateForce_pure_in_position_flag_mass_witness :
    heldGlobals.spherePosition = longOffsetGlobals.spherePosition ∧
      heldGlobals.ballAttached = longOffsetGlobals.ballAttached ∧
      (heldGlobals.ballAttached = true → heldGlobals.sphereMass = longOffsetGlobals.sphereMass) ∧
      CalculateForce heldGlobals heldGlobals.spherePosition =
        CalculateForce longOffsetGlobals longOffsetGlobals.spherePosition :=
  ⟨rfl, rfl, fun _ => rfl,
    CalculateForce_pure_in_position_flag_mass heldGlobals longOffsetGlobals rfl rfl
      (fun _ => rfl)⟩

/-! ## The grab state machine: further theorems -/

/-- C14: no snap on grab.  From a reachable detached state, a frame that satisfies the grab
condition sets the grab offset to tip position minus the sphere position held before the
update on each axis, and leaves the tracked sphere position equal to its value before the
update. -/
theorem drawball_no_snap_on_grab (g : Globals) (state : HapticDeviceState)
    (hr : Reachable g) (hd : g.ballAttached = false)
    (hgrab : Real.sqrt ((sqDist state.position g.spherePosition : ℚ) : ℝ) ≤ 3 * 12 ∧
      state.button ≠ 0) :
    (drawball g state).ballAttached = true ∧
      (∀ i, (drawball g state).offsetSphere i = state.position i - g.spherePosition i) ∧
      (drawball g state).spherePosition = g.spherePosition := by
  have hg : grabCondition g state = true := (grabCondition_iff g state).mpr hgrab
  have hflag : g.gettingBallPosition = true := by
    rw [Reachable.flags g hr, hd]; rfl
  have hoff : (drawball g state).offsetSphere =
      fun i => state.position i - g.spherePosition i := by
    rw [drawball_grab_offset g state hg, hflag]; rfl
  refine ⟨by rw [drawball_ballAttached, hg], fun i => by rw [hoff], ?_⟩
  funext i
  rw [drawball_grab_position g state hg, hoff]
  ring

/-- C14 instance: the first frame of the grab scenario from the initial state. -/
theorem drawball_no_snap_on_grab_witness :
    Reachable initialGlobals ∧ initialGlobals.ballAttached = false ∧
      (Real.sqrt ((sqDist grabSnapshot.position initialGlobals.spherePosition : ℚ) : ℝ) ≤ 3 * 12 ∧
        grabSnapshot.button ≠ 0) ∧
      (drawball initialGlobals grabSnapshot).spherePosition = initialGlobals.spherePosition :=
  have hgrab : Real.sqrt ((sqDist grabSnapshot.position initialGlobals.spherePosition : ℚ) : ℝ)
      ≤ 3 * 12 ∧ grabSnapshot.button ≠ 0 :=
    ⟨by rw [grabScenario_distance]; norm_num, by decide⟩
  ⟨Reachable.init, rfl, hgrab,
    (drawball_no_snap_on_grab initialGlobals grabSnapshot Reachable.init rfl hgrab).2.2⟩

/-- C16: the "needs offset recompute" flag is kept consistent with the attachment state.
Every `drawball` that ends detached sets `gettingBallPosition` to true, every `drawball` that
ends attached leaves it false, and in the initial state and every reachable state
`gettingBallPosition = not ballAttached`. -/
theorem gettingBallPosition_consistent (g : Globals) (hr : Reachable g) :
    g.gettingBallPosition = !g.ballAttached ∧
      initialGlobals.gettingBallPosition = !initialGlobals.ballAttached ∧
      (∀ (g0 : Globals) (state : HapticDeviceState),
        ((drawball g0 state).ballAttached = false →
          (drawball g0 state).gettingBallPosition = true) ∧
        ((drawball g0 state).ballAttached = true →
          (drawball g0 state).gettingBallPosition = false)) := by
  refine ⟨Reachable.flags g hr, rfl, ?_⟩
  intro g0 state
  rw [drawball_gettingBallPosition, drawball_ballAttached]
  cases grabCondition g0 state <;> simp

/-- C16 instance: the state after the two frames of the grab scenario and a release. -/
theorem gettingBallPosition_consistent_witness :
    Reachable (drawball (drawball initialGlobals grabSnapshot) releasedSnapshot) ∧
      (drawball (drawball initialGlobals grabSnapshot) releasedSnapshot).gettingBallPosition =
        !(drawball (drawball initialGlobals grabSnapshot) releasedSnapshot).ballAttached :=
  have hr : Reachable (drawball (drawball initialGlobals grabSnapshot) releasedSnapshot) :=
    Reachable.frame releasedSnapshot (Reachable.frame grabSnapshot Reachable.init)
  ⟨hr, (gettingBallPosition_consistent _ hr).1⟩

/-! ## The camera handler: theorems -/

/-- The grab condition over the rationals, as the model evaluates it. -/
theorem grabCondition_iff_sq (g : Globals) (state : HapticDeviceState) :
    grabCondition g state = true ↔
      sqDist state.position g.spherePosition ≤ 36 ^ 2 ∧ state.button ≠ 0 := by
  have h36 : (((3 * SPHERE_RADIUS : Int) : ℚ)) = 36 := by norm_num [SPHERE_RADIUS]
  simp only [grabCondition, Bool.and_eq_true, decide_eq_true_eq, h36]

theorem MyGlutMenu_offsetSphere (ID : Int) (g : Globals) :
    (MyGlutMenu ID g).offsetSphere = g.offsetSphere := by
  unfold MyGlutMenu
  dsimp only
  split_ifs <;> rfl

theorem MyGlutMouse_offsetSphere (button state x y : Int) (g : Globals) :
    (MyGlutMouse button state x y g).offsetSphere = g.offsetSphere := by
  unfold MyGlutMouse
  split_ifs <;> rfl

theorem MyGlutMotion_offsetSphere (x y : Int) (g : Globals) :
    (MyGlutMotion x y g).offsetSphere = g.offsetSphere := by
  unfold MyGlutMotion
  split_ifs <;> rfl

/-- In every reachable state with the sphere attached, the grab offset is no longer than the
grab radius `36` (squared form). -/
theorem Reachable.offset_bound (g : Globals) (hr : Reachable g) :
    g.ballAttached = true →
      (g.offsetSphere 0) ^ 2 + (g.offsetSphere 1) ^ 2 + (g.offsetSphere 2) ^ 2 ≤ 36 ^ 2 := by
  induction hr with
  | init => intro h; exact absurd h (by decide)
  | @frame g0 state hr0 ih =>
    intro ha
    rw [drawball_ballAttached] at ha
    rw [drawball_grab_offset g0 state ha]
    cases hgb : g0.gettingBallPosition
    · have hatt : g0.ballAttached = true := by
        have hf := Reachable.flags g0 hr0
        rw [hgb] at hf
        cases hb : g0.ballAttached
        · rw [hb] at hf; exact absurd hf (by decide)
        · rfl
      simpa using ih hatt
    · have hsq := ((grabCondition_iff_sq g0 state).mp ha).1
      simpa [sqDist] using hsq
  | menu ID _ ih =>
    rw [(MyGlutMenu_grab_fields ID _).1, MyGlutMenu_offsetSphere]; exact ih
  | mouse button state x y _ ih =>
    rw [(MyGlutMouse_grab_fields button state x y _).1, MyGlutMouse_offsetSphere]; exact ih
  | motion x y _ ih =>
    rw [(MyGlutMotion_grab_fields x y _).1, MyGlutMotion_offsetSphere]; exact ih

/-- Running `drawball` a second time on the same snapshot changes nothing, provided the two
grab flags are consistent and an attached sphere has a grab offset within the grab radius. -/
theorem drawball_twice_of_bound (g : Globals) (state : HapticDeviceState)
    (hflag : g.gettingBallPosition = !g.ballAttached)
    (hbound : g.ballAttached = true →
      (g.offsetSphere 0) ^ 2 + (g.offsetSphere 1) ^ 2 + (g.offsetSphere 2) ^ 2 ≤ 36 ^ 2) :
    drawball (drawball g state) state = drawball g state := by
  cases hg : grabCondition g state
  · have h1 : drawball g state = { g with gettingBallPosition := true, ballAttached := false } := by
      unfold drawball
      rw [drawballTraced_release g state hg]
    have hg1 : grabCondition (drawball g state) state = false := by
      rw [h1]
      exact hg
    have h2 : drawball (drawball g state) state =
        { drawball g state with gettingBallPosition := true, ballAttached := false } := by
      show (drawballTraced (drawball g state) state).1 = _
      rw [drawballTraced_release _ state hg1]
    rw [h2, h1]
  · obtain ⟨hsq, hbtn⟩ := (grabCondition_iff_sq g state).mp hg
    have hoff : (drawball g state).offsetSphere =
        if g.gettingBallPosition then fun i => state.position i - g.spherePosition i
        else g.offsetSphere := drawball_grab_offset g state hg
    have hlen : ((drawball g state).offsetSphere 0) ^ 2 + ((drawball g state).offsetSphere 1) ^ 2
        + ((drawball g state).offsetSphere 2) ^ 2 ≤ 36 ^ 2 := by
      rw [hoff]
      cases hgb : g.gettingBallPosition
      · have hatt : g.ballAttached = true := by
          rw [hgb] at hflag
          cases hb : g.ballAttached
          · rw [hb] at hflag; exact absurd hflag (by decide)
          · rfl
        simpa using hbound hatt
      · simpa [sqDist] using hsq
    have hg1 : grabCondition (drawball g state) state = true := by
      rw [grabCondition_iff_sq]
      refine ⟨?_, hbtn⟩
      have e : sqDist state.position (drawball g state).spherePosition =
          ((drawball g state).offsetSphere 0) ^ 2 + ((drawball g state).offsetSphere 1) ^ 2
            + ((drawball g state).offsetSphere 2) ^ 2 := by
        unfold sqDist
        rw [drawball_grab_position g state hg 0, drawball_grab_position g state hg 1,
          drawball_grab_position g state hg 2]
        ring
      rw [e]
      exact hlen
    have hgb1 : (drawball g state).gettingBallPosition = false := by
      rw [drawball_gettingBallPosition, hg]; rfl
    have h2 := drawballTraced_grab (drawball g state) state hg1
    have hsp : (drawball g state).spherePosition =
        fun i => state.position i - (drawball g state).offsetSphere i := by
      funext i
      exact drawball_grab_position g state hg i
    have hatt1 : (drawball g state).ballAttached = true := by
      rw [drawball_ballAttached, hg]
    have htr : (drawball g state).identityTransform = state.transform_matrix :=
      drawball_grab_transform g state hg
    show (drawballTraced (drawball g state) state).1 = drawball g state
    rw [h2]
    simp only [hgb1, Bool.false_eq_true, if_false]
    rw [← hsp, ← htr, ← hatt1, ← hgb1]

theorem longOffset_first_grab : grabCondition longOffsetGlobals closeSnapshot = true := by
  rw [grabCondition_iff_sq]
  refine ⟨?_, by decide⟩
  simp [sqDist, longOffsetGlobals, heldGlobals, initialGlobals, closeSnapshot, snapshotAt]
  norm_num

theorem longOffset_second_release :
    grabCondition (drawball longOffsetGlobals closeSnapshot) closeSnapshot = false := by
  have hsp : (drawball longOffsetGlobals closeSnapshot).spherePosition = ![-90, 0, 0] := by
    funext i
    rw [drawball_grab_position _ _ longOffset_first_grab,
      drawball_grab_offset _ _ longOffset_first_grab]
    fin_cases i <;>
      norm_num [longOffsetGlobals, heldGlobals, initialGlobals, closeSnapshot, snapshotAt]
  cases h : grabCondition (drawball longOffsetGlobals closeSnapshot) closeSnapshot
  · rfl
  · exfalso
    have hsq := ((grabCondition_iff_sq _ _).mp h).1
    rw [hsp] at hsq
    simp [sqDist, closeSnapshot, snapshotAt] at hsq
    norm_num at hsq

/-- C18: the interaction update is idempotent on reachable states.  In a reachable state with
the sphere attached the grab offset has Euclidean length at most `3*12 = 36`; consequently
running `drawball` twice on the same snapshot gives the same state as running it once, and in
particular a sphere held after a frame stays held on a repeat of that frame.  From the
unreachable attached state `longOffsetGlobals` (offset length `100`) the second run detaches. -/
theorem drawball_idempotent_on_reachable (g : Globals) (state : HapticDeviceState)
    (hr : Reachable g) :
    (g.ballAttached = true →
        Real.sqrt (((g.offsetSphere 0) ^ 2 + (g.offsetSphere 1) ^ 2 + (g.offsetSphere 2) ^ 2 : ℚ) : ℝ)
          ≤ 3 * 12) ∧
      drawball (drawball g state) state = drawball g state ∧
      ((drawball g state).ballAttached = true →
        (drawball (drawball g state) state).ballAttached = true) ∧
      (longOffsetGlobals.ballAttached = true ∧
        (drawball longOffsetGlobals closeSnapshot).ballAttached = true ∧
        (drawball (drawball longOffsetGlobals closeSnapshot) closeSnapshot).ballAttached = false) := by
  have hidem : drawball (drawball g state) state = drawball g state :=
    drawball_twice_of_bound g state (Reachable.flags g hr) (Reachable.offset_bound g hr)
  refine ⟨?_, hidem, ?_, rfl, ?_, ?_⟩
  · intro ha
    have hb := Reachable.offset_bound g hr ha
    have hs := (sqrt_le_iff_sq_le _ 36 (by norm_num)).mpr hb
    have hc : ((36 : ℚ) : ℝ) = 3 * 12 := by norm_num
    rw [hc] at hs
    exact hs
  · intro ha
    rw [hidem]
    exact ha
  · rw [drawball_ballAttached, longOffset_first_grab]
  · rw [drawball_ballAttached, longOffset_second_release]

/-- C18 instance: the held state after the first frame of the grab scenario, with the tip then
at `(30, 5, 0)`. -/
theorem drawball_idempotent_on_reachable_witness :
    Reachable (drawball initialGlobals grabSnapshot) ∧
      drawball (drawball (drawball initialGlobals grabSnapshot) nearSnapshot) nearSnapshot =
        drawball (drawball initialGlobals grabSnapshot) nearSnapshot :=
  have hr : Reachable (drawball initialGlobals grabSnapshot) :=
    Reachable.frame grabSnapshot Reachable.init
  ⟨hr, (drawball_idempotent_on_reachable (drawball initialGlobals grabSnapshot) nearSnapshot hr).2.1⟩

/-! ## Lemmas on face highlighting -/

/-- One highlight block appends its face exactly when its three nested tests pass. -/
theorem highlightBlock_eq (c1 : Bool) (c2 c3 : Prop) [Decidable c2] [Decidable c3]
    (q : List CubeFace) (a : CubeFace) :
    (if c1 = true then if c2 then if c3 then q ++ [a] else q else q else q) =
      q ++ (if (c1 && decide c2 && decide c3) = true then [a] else []) := by
  cases c1 <;> by_cases h2 : c2 <;> by_cases h3 : c3 <;> simp [h2, h3]

theorem filter_allFaces (p : CubeFace → Bool) :
    allFaces.filter p =
      (if p .back = true then [CubeFace.back] else []) ++
        (if p .right = true then [CubeFace.right] else []) ++
        (if p .down = true then [CubeFace.down] else []) ++
        (if p .left = true then [CubeFace.left] else []) ++
        (if p .up = true then [CubeFace.up] else []) ++
        (if p .front = true then [CubeFace.front] else []) := by
  unfold allFaces
  simp only [List.filter_cons, List.filter_nil]
  split_ifs <;> rfl

/-- The six highlight blocks draw exactly the faces whose path condition holds, in order. -/
theorem highlightedFaces_eq_filter (g : Globals) :
    highlightedFaces g = allFaces.filter (faceActive g) := by
  rw [filter_allFaces]
  unfold highlightedFaces
  simp only [highlightBlock_eq]
  rfl

theorem mem_highlightedFaces (g : Globals) (f : CubeFace) :
    f ∈ highlightedFaces g ↔ faceActive g f = true := by
  rw [highlightedFaces_eq_filter, List.mem_filter]
  constructor
  · exact fun h => h.2
  · intro h
    refine ⟨?_, h⟩
    cases f <;> simp [allFaces]

theorem faceActive_positiveFace (g : Globals) (i : Fin 3) :
    faceActive g (positiveFace i) = true ↔
      g.ballAttached = true ∧ |g.spherePosition i| + 24 ≥ 75 ∧ g.spherePosition i > 0 := by
  obtain ⟨h24, h75⟩ := threshold_consts
  fin_cases i <;>
    simp only [positiveFace, faceActive, h24, h75, Bool.and_eq_true, decide_eq_true_eq,
      and_assoc, Fin.zero_eta, Fin.mk_one, Fin.reduceFinMk]

theorem faceActive_negativeFace (g : Globals) (i : Fin 3) :
    faceActive g (negativeFace i) = true ↔
      g.ballAttached = true ∧ |g.spherePosition i| + 24 ≥ 75 ∧ g.spherePosition i < 0 := by
  obtain ⟨h24, h75⟩ := threshold_consts
  fin_cases i <;>
    simp only [negativeFace, faceActive, h24, h75, Bool.and_eq_true, decide_eq_true_eq,
      and_assoc, Fin.zero_eta, Fin.mk_one, Fin.reduceFinMk]

theorem face_of_axis (f : CubeFace) (i : Fin 3) (h : f.axis = i) :
    f = positiveFace i ∨ f = negativeFace i := by
  subst h
  cases f <;> simp [CubeFace.axis, positiveFace, negativeFace]

theorem axis_positiveFace (i : Fin 3) : (positiveFace i).axis = i := by
  fin_cases i <;> rfl

theorem axis_negativeFace (i : Fin 3) : (negativeFace i).axis = i := by
  fin_cases i <;> rfl

/-- While detached the force is the zero vector. -/
theorem detachedForce_zero (g : Globals) (p : Vec3) (h : g.ballAttached = false) :
    CalculateForce g p = ![0, 0, 0] := by
  simp only [CalculateForce, h]
  funext i
  fin_cases i <;> simp [Function.update]

/-- The force `CalculateForce` returns once the gravity term is taken out (mass zero): the wall
contribution of the axis. -/
theorem wallContribution_eq (g : Globals) (i : Fin 3) :
    CalculateForce { g with sphereMass := 0 } g.spherePosition i =
      if g.ballAttached = true then
        if |g.spherePosition i| + 24 ≥ 75 then (if g.spherePosition i > 0 then -10 else 10)
        else 0
      else 0 := by
  rcases Bool.eq_false_or_eq_true g.ballAttached with hA | hA
  · have hA2 : ({ g with sphereMass := 0 } : Globals).ballAttached = true := hA
    have hd : hduVector3Dd_default i = 0 := by
      fin_cases i <;> simp [hduVector3Dd_default]
    rw [attachedForce_apply _ _ hA2, wallForceLoop_apply, if_pos hA, hd]
    simp
  · have hA2 : ({ g with sphereMass := 0 } : Globals).ballAttached = false := hA
    rw [detachedForce_zero _ _ hA2, if_neg (by rw [hA]; decide)]
    fin_cases i <;> simp

/-- The force with its gravity term, in terms of the force at mass zero. -/
theorem force_eq_wall_sub_gravity (g : Globals) (i : Fin 3) :
    CalculateForce g g.spherePosition i =
      CalculateForce { g with sphereMass := 0 } g.spherePosition i -
        (if g.ballAttached = true ∧ i = 1 then g.sphereMass else 0) := by
  rcases Bool.eq_false_or_eq_true g.ballAttached with hA | hA
  · have hA2 : ({ g with sphereMass := 0 } : Globals).ballAttached = true := hA
    rw [attachedForce_apply _ _ hA2, attachedForce_apply _ _ hA]
    by_cases hi : i = 1
    · rw [if_pos hi, if_pos hi, if_pos ⟨hA, hi⟩]
      simp
    · rw [if_neg hi, if_neg hi, if_neg (fun h => hi h.2)]
      simp
  · have hA2 : ({ g with sphereMass := 0 } : Globals).ballAttached = false := hA
    rw [detachedForce_zero _ _ hA, detachedForce_zero _ _ hA2,
      if_neg (fun h => by rw [hA] at h; exact absurd h.1 (by decide))]
    simp

/-- At most one face per axis and at most three faces in all, for any choice of active faces
in which the two faces of an axis are never both active. -/
theorem filter_allFaces_bounds (p : CubeFace → Bool) (i : Fin 3)
    (h0 : ¬ (p .right = true ∧ p .left = true)) (h1 : ¬ (p .up = true ∧ p .down = true))
    (h2 : ¬ (p .front = true ∧ p .back = true)) :
    (allFaces.filter p).length ≤ 3 ∧
      ((allFaces.filter p).filter (fun f => decide (f.axis = i))).length ≤ 1 := by
  rw [filter_allFaces]
  revert h0 h1 h2
  cases p .back <;> cases p .right <;> cases p .down <;>
    cases p .left <;> cases p .up <;> cases p .front <;>
    fin_cases i <;> decide

theorem faceActive_exclusive (g : Globals) (i : Fin 3) :
    ¬ (faceActive g (positiveFace i) = true ∧ faceActive g (negativeFace i) = true) := by
  rintro ⟨hp, hn⟩
  have h1 := ((faceActive_positiveFace g i).mp hp).2.2
  have h2 := ((faceActive_negativeFace g i).mp hn).2.2
  linarith

/-- Face highlighting against the wall contribution, for the globals the highlight blocks
read. -/
theorem highlightedFaces_wall (g : Globals) (i : Fin 3) :
    (positiveFace i ∈ highlightedFaces g ↔
        CalculateForce { g with sphereMass := 0 } g.spherePosition i = -10) ∧
      (negativeFace i ∈ highlightedFaces g ↔
        CalculateForce { g with sphereMass := 0 } g.spherePosition i = 10) := by
  rw [mem_highlightedFaces, mem_highlightedFaces, faceActive_positiveFace,
    faceActive_negativeFace, wallContribution_eq]
  by_cases hA : g.ballAttached = true
  · by_cases hV : |g.spherePosition i| + 24 ≥ 75
    · have hne : g.spherePosition i ≠ 0 := by
        intro h0
        rw [h0] at hV
        norm_num at hV
      by_cases hpos : g.spherePosition i > 0
      · have hnn : ¬ g.spherePosition i < 0 := not_lt.mpr (le_of_lt hpos)
        rw [if_pos hA, if_pos hV, if_pos hpos]
        constructor
        · exact ⟨fun _ => rfl, fun _ => ⟨hA, hV, hpos⟩⟩
        · constructor
          · intro h; exact absurd h.2.2 hnn
          · intro h; norm_num at h
      · have hneg : g.spherePosition i < 0 := lt_of_le_of_ne (not_lt.mp hpos) hne
        rw [if_pos hA, if_pos hV, if_neg hpos]
        constructor
        · constructor
          · intro h; exact absurd h.2.2 hpos
          · intro h; norm_num at h
        · exact ⟨fun _ => rfl, fun _ => ⟨hA, hV, hneg⟩⟩
    · rw [if_pos hA, if_neg hV]
      constructor
      · constructor
        · intro h; exact absurd h.2.1 hV
        · intro h; norm_num at h
      · constructor
        · intro h; exact absurd h.2.1 hV
        · intro h; norm_num at h
  · rw [if_neg hA]
    constructor
    · constructor
      · intro h; exact absurd h.1 hA
      · intro h; norm_num at h
    · constructor
      · intro h; exact absurd h.1 hA
      · intro h; norm_num at h

/-! ## Face highlighting: theorem -/

/-- C19: face highlighting agrees with the force law.  For the state a call of `drawball`
leaves and every axis `i`, writing `w` for the wall contribution of `CalculateForce` on axis `i`
(the returned component with the gravity term taken out, i.e. at mass zero): a face on axis `i`
is highlighted iff `w ≠ 0`; the positive-side face is highlighted iff `w = -10` and the
negative-side face iff `w = 10`; at most one face per axis and at most three faces in all are
highlighted, and none while detached. -/
theorem drawball_highlights_agree_with_force (g : Globals) (state : HapticDeviceState)
    (i : Fin 3) :
    ((∃ f ∈ drawballHighlights g state, f.axis = i) ↔
        CalculateForce { drawball g state with sphereMass := 0 }
          (drawball g state).spherePosition i ≠ 0) ∧
      (positiveFace i ∈ drawballHighlights g state ↔
        CalculateForce { drawball g state with sphereMass := 0 }
          (drawball g state).spherePosition i = -10) ∧
      (negativeFace i ∈ drawballHighlights g state ↔
        CalculateForce { drawball g state with sphereMass := 0 }
          (drawball g state).spherePosition i = 10) ∧
      (CalculateForce (drawball g state) (drawball g state).spherePosition i =
        CalculateForce { drawball g state with sphereMass := 0 }
            (drawball g state).spherePosition i -
          (if (drawball g state).ballAttached = true ∧ i = 1 then (drawball g state).sphereMass
            else 0)) ∧
      ((drawballHighlights g state).filter (fun f => decide (f.axis = i))).length ≤ 1 ∧
      (drawballHighlights g state).length ≤ 3 ∧
      ((drawball g state).ballAttached = false → drawballHighlights g state = []) := by
  obtain ⟨hpos, hneg⟩ := highlightedFaces_wall (drawball g state) i
  have hb := filter_allFaces_bounds (faceActive (drawball g state)) i
    (faceActive_exclusive (drawball g state) 0) (faceActive_exclusive (drawball g state) 1)
    (faceActive_exclusive (drawball g state) 2)
  rw [← highlightedFaces_eq_filter] at hb
  have hw := wallContribution_eq (drawball g state) i
  refine ⟨?_, hpos, hneg, force_eq_wall_sub_gravity (drawball g state) i, hb.2, hb.1, ?_⟩
  · unfold drawballHighlights
    constructor
    · rintro ⟨f, hf, hax⟩
      rcases face_of_axis f i hax with h | h
      · rw [h] at hf
        rw [hpos.mp hf]
        norm_num
      · rw [h] at hf
        rw [hneg.mp hf]
        norm_num
    · intro hne
      rw [hw] at hne hpos hneg
      by_cases hA : (drawball g state).ballAttached = true
      · by_cases hV : |(drawball g state).spherePosition i| + 24 ≥ 75
        · by_cases hp : (drawball g state).spherePosition i > 0
          · rw [if_pos hA, if_pos hV, if_pos hp] at hpos
            exact ⟨positiveFace i, hpos.mpr rfl, axis_positiveFace i⟩
          · rw [if_pos hA, if_pos hV, if_neg hp] at hneg
            exact ⟨negativeFace i, hneg.mpr rfl, axis_negativeFace i⟩
        · rw [if_pos hA, if_neg hV] at hne
          exact absurd rfl hne
      · rw [if_neg hA] at hne
        exact absurd rfl hne
  · intro hd
    unfold drawballHighlights
    rw [highlightedFaces_eq_filter]
    have hall : ∀ f, faceActive (drawball g state) f = false := by
      intro f
      cases f <;> simp [faceActive, hd]
    unfold allFaces
    simp [List.filter, hall]

/-! ## Lemmas on double rounding -/

theorem log2_eq (x : ℚ) (e : ℤ) (hlo : (2 : ℚ) ^ e ≤ x) (hhi : x < (2 : ℚ) ^ (e + 1)) :
    Int.log 2 x = e := by
  have hx : 0 < x := lt_of_lt_of_le (by positivity) hlo
  have h1 : e ≤ Int.log 2 x := by
    rw [← Int.zpow_le_iff_le_log (by norm_num) hx]
    simpa using hlo
  have h2 : Int.log 2 x < e + 1 := by
    rw [← Int.lt_zpow_iff_log_lt (by norm_num) hx]
    simpa using hhi
  omega

theorem roundHalfEven_of_near (q : ℚ) (n : ℤ) (h : |q - n| < 1 / 2) : roundHalfEven q = n := by
  rw [abs_lt] at h
  obtain ⟨h1, h2⟩ := h
  unfold roundHalfEven
  by_cases hq : (n : ℚ) ≤ q
  · have hf : ⌊q⌋ = n := by
      rw [Int.floor_eq_iff]
      constructor
      · exact hq
      · linarith
    rw [hf, if_pos (by linarith)]
  · have hq2 : q < n := not_le.mp hq
    have hf : ⌊q⌋ = n - 1 := by
      rw [Int.floor_eq_iff]
      push_cast
      constructor <;> linarith
    rw [hf]
    push_cast
    rw [if_neg (by linarith), if_pos (by linarith)]
    ring

theorem roundHalfEven_of_tie (q : ℚ) (m : ℤ) (h : q = m + 1 / 2) :
    roundHalfEven q = if m % 2 = 0 then m else m + 1 := by
  have hf : ⌊q⌋ = m := by
    rw [Int.floor_eq_iff]
    constructor <;> linarith
  unfold roundHalfEven
  rw [hf, h]
  have e : (m : ℚ) + 1 / 2 - m = 1 / 2 := by ring
  rw [e, if_neg (lt_irrefl _), if_neg (lt_irrefl _)]

theorem roundHalfEven_intCast (n : ℤ) : roundHalfEven (n : ℚ) = n :=
  roundHalfEven_of_near _ n (by simp)

/-- Evaluation of `fl` away from a tie: `x` lies in the binade with spacing `2 ^ e` and `n` is
the integer nearest to `x / 2 ^ e`. -/
theorem fl_eq_of_near (x : ℚ) (e n : ℤ) (hlo : (2 : ℚ) ^ (e + 52) ≤ |x|)
    (hhi : |x| < (2 : ℚ) ^ (e + 53)) (hn : |x / 2 ^ e - n| < 1 / 2) :
    fl x = n * 2 ^ e := by
  have hx : x ≠ 0 := by
    intro h0
    rw [h0, abs_zero] at hlo
    exact absurd hlo (not_le.mpr (by positivity))
  have hlog : Int.log 2 |x| = e + 52 := log2_eq |x| (e + 52) hlo (by
    have : e + 52 + 1 = e + 53 := by ring
    rw [this]; exact hhi)
  unfold fl
  rw [if_neg hx, hlog]
  have : e + 52 - 52 = e := by ring
  rw [this, roundHalfEven_of_near _ n hn]

/-- Evaluation of `fl` at a tie: `x / 2 ^ e` is half-way between `m` and `m + 1`. -/
theorem fl_eq_of_tie (x : ℚ) (e m : ℤ) (hlo : (2 : ℚ) ^ (e + 52) ≤ |x|)
    (hhi : |x| < (2 : ℚ) ^ (e + 53)) (hn : x / 2 ^ e = m + 1 / 2) :
    fl x = (if m % 2 = 0 then m else m + 1 : ℤ) * 2 ^ e := by
  have hx : x ≠ 0 := by
    intro h0
    rw [h0, abs_zero] at hlo
    exact absurd hlo (not_le.mpr (by positivity))
  have hlog : Int.log 2 |x| = e + 52 := log2_eq |x| (e + 52) hlo (by
    have : e + 52 + 1 = e + 53 := by ring
    rw [this]; exact hhi)
  unfold fl
  rw [if_neg hx, hlog]
  have : e + 52 - 52 = e := by ring
  rw [this, roundHalfEven_of_tie _ m hn]

/-- A number `n * 2 ^ e` with a 53-bit integer `n` is a double. -/
theorem fl_exact (n e : ℤ) (h1 : 2 ^ 52 ≤ |n|) (h2 : |n| < 2 ^ 53) :
    fl ((n : ℚ) * 2 ^ e) = n * 2 ^ e := by
  have hpos : (0 : ℚ) < 2 ^ e := by positivity
  have habs : |(n : ℚ) * 2 ^ e| = |(n : ℚ)| * 2 ^ e := by
    rw [abs_mul, abs_of_pos hpos]
  have hcast : |(n : ℚ)| = ((|n| : ℤ) : ℚ) := by
    rw [Int.cast_abs]
  have hn1 : (2 : ℚ) ^ (52 : ℤ) ≤ |(n : ℚ)| := by
    have h : ((2 ^ 52 : ℤ) : ℚ) ≤ ((|n| : ℤ) : ℚ) := by exact_mod_cast h1
    rw [hcast]
    norm_num at h ⊢
    exact h
  have hn2 : |(n : ℚ)| < (2 : ℚ) ^ (53 : ℤ) := by
    have h : ((|n| : ℤ) : ℚ) < ((2 ^ 53 : ℤ) : ℚ) := by exact_mod_cast h2
    rw [hcast]
    norm_num at h ⊢
    exact h
  apply fl_eq_of_near
  · rw [habs, zpow_add₀ (by norm_num : (2 : ℚ) ≠ 0), mul_comm ((2 : ℚ) ^ e)]
    exact mul_le_mul_of_nonneg_right hn1 hpos.le
  · rw [habs, zpow_add₀ (by norm_num : (2 : ℚ) ≠ 0), mul_comm ((2 : ℚ) ^ e)]
    exact mul_lt_mul_of_pos_right hn2 hpos
  · rw [mul_div_assoc, div_self (ne_of_gt hpos)]
    simp

/-! ## The force law in double arithmetic -/

theorem fl_neg_one : fl (-1) = -1 := by
  have h := fl_exact (-(2 ^ 52)) (-52) (by norm_num) (by norm_num)
  norm_num at h
  exact h

theorem fl_natCast (k : ℕ) (hk : k ≤ 2 ^ 53) : fl (k : ℚ) = k := by
  rcases Nat.eq_zero_or_pos k with h0 | hpos
  · subst h0
    simp [fl]
  · have hne : (k : ℚ) ≠ 0 := by exact_mod_cast (Nat.pos_iff_ne_zero.mp hpos)
    have habs : |(k : ℚ)| = k := abs_of_nonneg (by positivity)
    have hlog : Int.log 2 |(k : ℚ)| = Nat.log 2 k := by
      rw [habs, Int.log_natCast]
    have hL : Nat.log 2 k ≤ 53 := by
      have h1 : 2 ^ Nat.log 2 k ≤ k := Nat.pow_log_le_self 2 (Nat.pos_iff_ne_zero.mp hpos)
      have h2 : 2 ^ Nat.log 2 k ≤ 2 ^ 53 := le_trans h1 hk
      exact (Nat.pow_le_pow_iff_right (by norm_num)).mp h2
    unfold fl
    rw [if_neg hne, hlog]
    rcases Nat.lt_or_ge (Nat.log 2 k) 53 with hlt | hge
    · obtain ⟨d, hd⟩ : ∃ d : ℕ, Nat.log 2 k + d = 52 := ⟨52 - Nat.log 2 k, by omega⟩
      have hz : ((Nat.log 2 k : ℕ) : ℤ) - 52 = -(d : ℤ) := by omega
      rw [hz, zpow_neg, zpow_natCast]
      have hq : (k : ℚ) / ((2 : ℚ) ^ d)⁻¹ = ((k * 2 ^ d : ℕ) : ℤ) := by
        push_cast
        field_simp
      rw [hq, roundHalfEven_intCast]
      push_cast
      field_simp
    · have hLe : Nat.log 2 k = 53 := le_antisymm hL hge
      have hk2 : k = 2 ^ 53 := by
        have h1 : 2 ^ Nat.log 2 k ≤ k := Nat.pow_log_le_self 2 (Nat.pos_iff_ne_zero.mp hpos)
        rw [hLe] at h1
        exact le_antisymm hk h1
      rw [hLe, hk2]
      have hq : (((2 ^ 53 : ℕ) : ℚ)) / (2 : ℚ) ^ (((53 : ℕ) : ℤ) - 52) = ((2 ^ 52 : ℤ) : ℚ) := by
        norm_num
      rw [hq, roundHalfEven_intCast]
      norm_num

/-- The double sum `2^53 + 1` is `2^53`: a tie, and `2^53` has the even significand. -/
theorem fl_two_pow_53_add_one : fl (2 ^ 53 + 1) = 2 ^ 53 := by
  have h := fl_eq_of_tie (2 ^ 53 + 1) 1 (2 ^ 52)
    (by norm_num [abs_of_pos]) (by norm_num [abs_of_pos]) (by norm_num)
  rw [h]
  norm_num

theorem MyGlutMenuD_increase (g : Globals) :
    (MyGlutMenuD 1 g).sphereMass = fl (g.sphereMass + 1) := by
  simp [MyGlutMenuD]

theorem MyGlutMenuD_decrease (g : Globals) :
    (MyGlutMenuD 2 g).sphereMass =
      if fl (g.sphereMass - 1) < 0 then 0 else fl (g.sphereMass - 1) := by
  unfold MyGlutMenuD
  dsimp only
  by_cases h : fl (g.sphereMass - 1) < 0
  · simp [h]
  · simp [h]

/-- An increase command on a whole-number mass `k ≤ 2^53`: `k + 1`, capped at `2^53`. -/
theorem MyGlutMenuD_increase_nat (g : Globals) (k : ℕ) (hk : k ≤ 2 ^ 53)
    (hm : g.sphereMass = k) :
    (MyGlutMenuD 1 g).sphereMass = ((min (k + 1) (2 ^ 53) : ℕ) : ℚ) := by
  rw [MyGlutMenuD_increase, hm]
  rcases Nat.lt_or_ge k (2 ^ 53) with hlt | hge
  · have h1 : k + 1 ≤ 2 ^ 53 := hlt
    have e : (k : ℚ) + 1 = ((k + 1 : ℕ) : ℚ) := by push_cast; ring
    rw [e, fl_natCast _ h1, min_eq_left h1]
  · have hk2 : k = 2 ^ 53 := le_antisymm hk hge
    rw [hk2]
    have e : (((2 ^ 53 : ℕ) : ℚ)) + 1 = 2 ^ 53 + 1 := by norm_num
    rw [e, fl_two_pow_53_add_one, min_eq_right (Nat.le_succ _)]
    norm_num

/-- A decrease command on a whole-number mass `k ≤ 2^53`: `k - 1`, floored at `0`. -/
theorem MyGlutMenuD_decrease_nat (g : Globals) (k : ℕ) (hk : k ≤ 2 ^ 53)
    (hm : g.sphereMass = k) :
    (MyGlutMenuD 2 g).sphereMass = ((k - 1 : ℕ) : ℚ) := by
  rw [MyGlutMenuD_decrease, hm]
  rcases Nat.eq_zero_or_pos k with h0 | hpos
  · subst h0
    have e : ((0 : ℕ) : ℚ) - 1 = -1 := by norm_num
    have hf : fl (-1) = -1 := fl_neg_one
    rw [e, hf, if_pos (by norm_num)]
    norm_num
  · have e : (k : ℚ) - 1 = ((k - 1 : ℕ) : ℚ) := by
      rw [Nat.cast_sub hpos]
      norm_num
    have hk1 : k - 1 ≤ 2 ^ 53 := le_trans (Nat.sub_le k 1) hk
    rw [e, fl_natCast _ hk1, if_neg (not_lt.mpr (by positivity))]

theorem MyGlutMenuD_mass_nat (ID : Int) (g : Globals) (k : ℕ) (hk : k ≤ 2 ^ 53)
    (hm : g.sphereMass = k) :
    ∃ j : ℕ, j ≤ 2 ^ 53 ∧ (MyGlutMenuD ID g).sphereMass = j := by
  by_cases h1 : ID = 1
  · subst h1
    exact ⟨min (k + 1) (2 ^ 53), min_le_right _ _, MyGlutMenuD_increase_nat g k hk hm⟩
  · by_cases h2 : ID = 2
    · subst h2
      exact ⟨k - 1, le_trans (Nat.sub_le k 1) hk, MyGlutMenuD_decrease_nat g k hk hm⟩
    · refine ⟨k, hk, ?_⟩
      unfold MyGlutMenuD
      dsimp only
      split_ifs <;> exact hm

theorem runMenuD_mass_nat (ids : List Int) (g : Globals) (k : ℕ) (hk : k ≤ 2 ^ 53)
    (hm : g.sphereMass = k) :
    ∃ j : ℕ, j ≤ 2 ^ 53 ∧ (runMenuD ids g).sphereMass = j := by
  induction ids generalizing g k with
  | nil => exact ⟨k, hk, hm⟩
  | cons ID rest ih =>
    obtain ⟨j, hj, hmj⟩ := MyGlutMenuD_mass_nat ID g k hk hm
    unfold runMenuD
    rw [List.foldl_cons]
    exact ih (MyGlutMenuD ID g) j hj hmj

/-- `n` increase commands on a whole-number mass `k ≤ 2^53`: `k + n`, capped at `2^53`. -/
theorem repeatMenuD_increase_nat (n : ℕ) (g : Globals) (k : ℕ) (hk : k ≤ 2 ^ 53)
    (hm : g.sphereMass = k) :
    (repeatMenuD 1 n g).sphereMass = ((min (k + n) (2 ^ 53) : ℕ) : ℚ) := by
  induction n with
  | zero =>
    show g.sphereMass = _
    rw [hm, Nat.add_zero, min_eq_left hk]
  | succ m ih =>
    show (MyGlutMenuD 1 (repeatMenuD 1 m g)).sphereMass = _
    rw [MyGlutMenuD_increase_nat _ (min (k + m) (2 ^ 53)) (min_le_right _ _) ih]
    congr 1
    omega

theorem initialMass_nat : initialGlobals.sphereMass = ((1 : ℕ) : ℚ) := by
  show (1 : ℚ) = ((1 : ℕ) : ℚ)
  norm_num

theorem saturatedMass_nat : saturatedGlobals.sphereMass = ((2 ^ 53 : ℕ) : ℚ) := by
  show (2 ^ 53 : ℚ) = ((2 ^ 53 : ℕ) : ℚ)
  norm_num

/-- C10, as stated, fails on the program.  The mass `2^53` is a double; an increase command
applied to it leaves it at `2^53` instead of `2^53 + 1`, any number of further increase commands
leaves it there, and `2^53` increase commands from the initial mass `1` give `2^53`, not
`1 + 2^53`: no number of increase commands exceeds the bound `2^53`. -/
theorem sphereMass_saturation_counterexample :
    fl (2 ^ 53) = 2 ^ 53 ∧
      saturatedGlobals.sphereMass = 2 ^ 53 ∧
      (MyGlutMenuD 1 saturatedGlobals).sphereMass = 2 ^ 53 ∧
      (∀ n : ℕ, (repeatMenuD 1 n saturatedGlobals).sphereMass = 2 ^ 53) ∧
      (repeatMenuD 1 (2 ^ 53) initialGlobals).sphereMass = 2 ^ 53 ∧
      (∀ n : ℕ, (repeatMenuD 1 n initialGlobals).sphereMass ≤ 2 ^ 53) := by
  have hfl : fl (2 ^ 53) = 2 ^ 53 := by
    have h := fl_natCast (2 ^ 53) le_rfl
    norm_num at h ⊢
    exact h
  refine ⟨hfl, rfl, ?_, ?_, ?_, ?_⟩
  · rw [MyGlutMenuD_increase_nat saturatedGlobals (2 ^ 53) le_rfl saturatedMass_nat,
      min_eq_right (Nat.le_succ _)]
    norm_num
  · intro n
    rw [repeatMenuD_increase_nat n saturatedGlobals (2 ^ 53) le_rfl saturatedMass_nat,
      min_eq_right (Nat.le_add_right _ _)]
    norm_num
  · rw [repeatMenuD_increase_nat (2 ^ 53) initialGlobals 1 (by norm_num) initialMass_nat,
      min_eq_right (Nat.le_add_left _ _)]
    norm_num
  · intro n
    rw [repeatMenuD_increase_nat n initialGlobals 1 (by norm_num) initialMass_nat]
    have h : min (1 + n) (2 ^ 53) ≤ 2 ^ 53 := min_le_right _ _
    have h2 : ((min (1 + n) (2 ^ 53) : ℕ) : ℚ) ≤ ((2 ^ 53 : ℕ) : ℚ) := Nat.cast_le.mpr h
    refine le_trans h2 (le_of_eq ?_)
    norm_num

/-- C10, amended: mass adjustment is monotone and has no clamp from above, but the double mass
is not unbounded.  After any sequence of menu commands from the initial state the mass is a
whole number between `0` and `2^53`; on such a mass an increase command never lowers it and a
decrease command never raises it; `n` consecutive increase commands applied to it yield
`m + n` as long as `m + n ≤ 2^53` and `2^53` from there on. -/
theorem sphereMass_monotone_saturating (ids : List Int) :
    (∃ k : ℕ, k ≤ 2 ^ 53 ∧ (runMenuD ids initialGlobals).sphereMass = k) ∧
      (runMenuD ids initialGlobals).sphereMass ≤
        (MyGlutMenuD 1 (runMenuD ids initialGlobals)).sphereMass ∧
      (MyGlutMenuD 2 (runMenuD ids initialGlobals)).sphereMass ≤
        (runMenuD ids initialGlobals).sphereMass ∧
      (∀ n : ℕ, (repeatMenuD 1 n (runMenuD ids initialGlobals)).sphereMass =
        min ((runMenuD ids initialGlobals).sphereMass + n) (2 ^ 53)) := by
  obtain ⟨k, hk, hm⟩ := runMenuD_mass_nat ids initialGlobals 1 (by norm_num) initialMass_nat
  refine ⟨⟨k, hk, hm⟩, ?_, ?_, ?_⟩
  · rw [MyGlutMenuD_increase_nat _ k hk hm, hm]
    have h : k ≤ min (k + 1) (2 ^ 53) := le_min (Nat.le_succ k) hk
    exact_mod_cast h
  · rw [MyGlutMenuD_decrease_nat _ k hk hm, hm]
    have h : k - 1 ≤ k := Nat.sub_le k 1
    exact_mod_cast h
  · intro n
    rw [repeatMenuD_increase_nat n _ k hk hm, hm]
    push_cast
    rfl

end SFUEnsc488
